import Mathlib

/-!
Verification development for the TessQuiz repository (`old quizzes/index.js`).

The file shallowly embeds the core of the program:

* `attemptQuiz` — the answer prober: for one question it submits candidate
  options and watches the remote score for an increment of exactly 1.
* `attemptOneQuiz` — the quiz runner: creates a quiz attempt, probes each
  question in order while threading the running score, accumulates the plain
  text report and writes it to a file named after the sanitized topic name.
* `getUnitTopics`, `resultQuiz`, `handlePost` — the unit orchestrator: the
  `app.post('/')` handler that validates the request, installs the access
  token, and walks units and topics.

The remote service (axios) is abstracted by an environment `Env` of response
functions; every remote call and every observable action (console log of a
skip, file write, ...) is recorded in a list of `Event`s so that theorems can
speak about which calls a run issues and with which access token.  Loops of
the source that have no structural bound (the prober's `while` loop) take a
`fuel` argument; a `none` result means the loop did not finish within `fuel`
iterations, so a result of `none` for every `fuel` is genuine divergence.
-/

namespace TessQuiz

/-- The fixed candidate set `const options = ['a', 'b', 'c', 'd']` of
`attemptQuiz`.  The source indexes this array with an unbounded counter `i`,
so the embedding reads it with the total `List.get?`: `options.get? i = none`
models the JavaScript value `undefined` produced by `options[i]` for `i ≥ 4`. -/
def options : List String := ["a", "b", "c", "d"]

/-- Loop body of `attemptQuiz` (`while (score !== currentScore + 1) ...`).

`respond j` is the outcome of the `j`-th call to `attemptQuizApi` for this
question: `.ok s` means the answer was saved and the score readback returned
`s`; `.error ()` means axios rejected (in `attemptQuizApi` or `getScore`), in
which case the source `catch`es and `break`s.  The state is the mutable
locals of the source — `score`, `i`, `correctOption` — plus `trace`, the list
of candidate values submitted so far (each loop iteration issues exactly one
submission carrying `options[i]`).  The first component of the result is
`none` when the loop has not returned within `fuel` iterations, otherwise
`some (score, correctOption)` as returned by the source. -/
def attemptQuizGo (respond : Nat → Except Unit Int) (currentScore : Int) :
    Nat → Int → Nat → Option String → List (Option String) →
      Option (Int × Option String) × List (Option String)
  | 0, _, _, _, trace => (none, trace)
  | fuel+1, score, i, correctOption, trace =>
    if score = currentScore + 1 then
      (some (score, correctOption), trace)
    else
      match respond i with
      | .error _ => (some (score, correctOption), trace ++ [options.get? i])
      | .ok s =>
          attemptQuizGo respond currentScore fuel s (i+1)
            (if s = currentScore + 1 then options.get? i else correctOption)
            (trace ++ [options.get? i])

/-- The answer prober `attemptQuiz(quizId, questionId, currentScore)` of the
source: `score` starts at `currentScore`, `i` at `0`, `correctOption` at
`null` (`none`).  Returns the source's `{ score, correctOption }` (or `none`
if the loop has not finished within `fuel` iterations) together with the
trace of submitted candidates. -/
def attemptQuiz (respond : Nat → Except Unit Int) (currentScore : Int) (fuel : Nat) :
    Option (Int × Option String) × List (Option String) :=
  attemptQuizGo respond currentScore fuel currentScore 0 none []

/-- One quiz question as delivered by the create-quiz payload:
`{questionId, question, options}` with `options` the ordered key/text pairs
of `Object.entries(question.options)`. -/
structure Question where
  questionId : Nat
  question : String
  options : List (String × String)
deriving Repr, DecidableEq

/-- The create-quiz payload: `data.payload.quizId` and the ordered question
list `data.payload.questions`. -/
structure QuizPayload where
  quizId : Nat
  questions : List Question
deriving Repr, DecidableEq

/-- One topic as delivered by `get-topics-unit`: `{id, name, contentFlag}`. -/
structure TopicRaw where
  id : Nat
  name : String
  contentFlag : Bool
deriving Repr, DecidableEq

/-- The shape `getUnitTopics` maps eligible topics to:
`{topicId: topic.id, topicName: topic.name}`. -/
structure TopicRef where
  topicId : Nat
  topicName : String
deriving Repr, DecidableEq

/-- Observable actions of a run.  Remote calls record the access token they
were issued with (the `Authorization` header value `ACCESS_TOKEN`). -/
inductive Event where
  | listTopicsCall (token : String) (unitId : String)
  | topicLog (topicId : Nat) (topicName : String)
  | quizResultCall (token : String) (topicId : Nat)
  | skipLog (topicId : Nat)
  | solveLog (topicId : Nat)
  | createQuizCall (token : String) (topicId : Nat)
  | writeFile (fileName : String) (content : String)
  | finishedLog (topicId : Nat)
deriving Repr, DecidableEq

/-- The access token a remote-call event was issued with; `none` for events
that are not remote calls (console logs, the local file write). -/
def Event.remoteToken : Event → Option String
  | .listTopicsCall token _ => some token
  | .quizResultCall token _ => some token
  | .createQuizCall token _ => some token
  | _ => none

/-- Whether an event is the runner's create-quiz call (one quiz attempt
creation on the remote service). -/
def Event.isCreateQuizCall : Event → Bool
  | .createQuizCall _ _ => true
  | _ => false

/-- Whether an event is a report-file write. -/
def Event.isWriteFile : Event → Bool
  | .writeFile _ _ => true
  | _ => false

/-- Whether an event is the orchestrator's "already done" skip log. -/
def Event.isSkipLog : Event → Bool
  | .skipLog _ => true
  | _ => false

/-- Whether an event is the orchestrator's quiz-result (completion status)
call. -/
def Event.isQuizResultCall : Event → Bool
  | .quizResultCall _ _ => true
  | _ => false

/-- Behaviour of the remote service and the file system for one run.
`respond q j` is the outcome of the `j`-th submission round-trip issued for
question `q` (see `attemptQuizGo`). -/
structure Env where
  listTopics : String → Except Unit (List TopicRaw)
  quizResult : Nat → Except Unit Bool
  createQuiz : Nat → Except Unit QuizPayload
  respond : Nat → Nat → Except Unit Int
  writeFile : String → String → Except Unit Unit

/-- The `Options:` section of one report block: the loop
`for ([key, value] of Object.entries(question.options)) content += ...`. -/
def optionLines : List (String × String) → String
  | [] => ""
  | kv :: rest => kv.1 ++ ": " ++ kv.2 ++ "\n" ++ optionLines rest

/-- The text appended to `content` for one question: the header lines added
before the probe plus the `Correct Option:` line added after it
(`result.correctOption || 'Not locked'`). -/
def questionBlock (q : Question) (correctOption : Option String) : String :=
  "Question ID: " ++ toString q.questionId ++ "\n" ++
  "Question: " ++ q.question ++ "\n" ++
  "Options:\n" ++ optionLines q.options ++
  "Correct Option: " ++ correctOption.getD "Not locked" ++ "\n\n"

/-- One character of `topicName.replace(/[^a-z0-9]/gi, '_')`. -/
def sanitizeChar (c : Char) : Char := if c.isAlphanum then c else '_'

/-- `topicName.replace(/[^a-z0-9]/gi, '_').toLowerCase()` of the source.
After the replacement only ASCII alphanumerics and `_` remain, so the ASCII
`Char.toLower` coincides with the JavaScript `toLowerCase`. -/
def sanitizeTopicName (s : String) : String :=
  String.mk ((s.data.map sanitizeChar).map Char.toLower)

/-- The question loop of `attemptOneQuiz`: threads `currentScore` and the
accumulated report `content` through the probes, question by question.  A
`none` result means some question's probe did not finish within `fuel`. -/
def runQuestions (respond : Nat → Nat → Except Unit Int) (fuel : Nat) :
    List Question → Int → String → Option (Int × String)
  | [], currentScore, content => some (currentScore, content)
  | q :: qs, currentScore, content =>
    match (attemptQuiz (respond q.questionId) currentScore fuel).1 with
    | none => none
    | some (s, co) => runQuestions respond fuel qs s (content ++ questionBlock q co)

/-- The quiz runner `attemptOneQuiz(quizId, topicName)`: creates the quiz
attempt (the argument named `quizId` in the source is in fact the topic id),
runs the question loop starting from `currentScore = 0`, writes the report
file, and returns `{quizId: data.payload.quizId, finalScore: currentScore}`.
Any failure of the create call or of the file write is rethrown
(`.error ()`); probes themselves never throw (the prober catches and
breaks). -/
def attemptOneQuiz (env : Env) (fuel : Nat) (token : String)
    (quizId : Nat) (topicName : String) :
    Option (List Event × Except Unit (Nat × Int)) :=
  match env.createQuiz quizId with
  | .error _ => some ([.createQuizCall token quizId], .error ())
  | .ok payload =>
    match runQuestions env.respond fuel payload.questions 0 "" with
    | none => none
    | some (finalScore, content) =>
      let fileName := sanitizeTopicName topicName ++ ".txt"
      match env.writeFile fileName content with
      | .error _ =>
        some ([.createQuizCall token quizId, .writeFile fileName content], .error ())
      | .ok _ =>
        some ([.createQuizCall token quizId, .writeFile fileName content],
          .ok (payload.quizId, finalScore))

/-- The filter-and-project step of `getUnitTopics`: keep topics with a
truthy `contentFlag` and map each to `{topicId: topic.id, topicName:
topic.name}`. -/
def eligibleTopics (ts : List TopicRaw) : List TopicRef :=
  (ts.filter (fun t => t.contentFlag)).map
    (fun t => { topicId := t.id, topicName := t.name })

/-- `getUnitTopics(unitId)`: lists the unit's topics, keeps those with a
truthy `contentFlag` and projects them to `{topicId, topicName}`; a failed
call is rethrown. -/
def getUnitTopics (env : Env) (token : String) (unitId : String) :
    List Event × Except Unit (List TopicRef) :=
  ([.listTopicsCall token unitId],
    match env.listTopics unitId with
    | .error e => .error e
    | .ok ts => .ok (eligibleTopics ts))

/-- `resultQuiz(topicId)`: fetches the topic's quiz result and reports
whether `payload.badge === 1`; a failed call is rethrown. -/
def resultQuiz (env : Env) (token : String) (topicId : Nat) :
    List Event × Except Unit Bool :=
  ([.quizResultCall token topicId], env.quizResult topicId)

/-- The per-topic loop of the `app.post('/')` handler: for each topic query
the completion status; if already done, log a skip; otherwise run
`attemptOneQuiz`.  There is no try/catch inside this loop in the source, so
an error from `resultQuiz` or `attemptOneQuiz` propagates (`.error ()`),
ending the loop at once. -/
def topicsLoop (env : Env) (fuel : Nat) (token : String) :
    List TopicRef → Option (List Event × Except Unit Unit)
  | [] => some ([], .ok ())
  | t :: ts =>
    let q := resultQuiz env token t.topicId
    match q.2 with
    | .error _ => some (q.1, .error ())
    | .ok true =>
      match topicsLoop env fuel token ts with
      | none => none
      | some (evts, r) => some (q.1 ++ [.skipLog t.topicId] ++ evts, r)
    | .ok false =>
      match attemptOneQuiz env fuel token t.topicId t.topicName with
      | none => none
      | some (revts, .error _) =>
        some (q.1 ++ [.solveLog t.topicId] ++ revts, .error ())
      | some (revts, .ok _) =>
        match topicsLoop env fuel token ts with
        | none => none
        | some (evts, r) =>
          some (q.1 ++ [.solveLog t.topicId] ++ revts
            ++ [.finishedLog t.topicId] ++ evts, r)

/-- The per-unit loop of the handler: list the unit's topics (an error here
propagates), print each topic (`topicLog`), then run `topicsLoop`. -/
def unitsLoop (env : Env) (fuel : Nat) (token : String) :
    List String → Option (List Event × Except Unit Unit)
  | [] => some ([], .ok ())
  | u :: us =>
    let l := getUnitTopics env token u
    match l.2 with
    | .error _ => some (l.1, .error ())
    | .ok topics =>
      let logEvts := topics.map (fun t => Event.topicLog t.topicId t.topicName)
      match topicsLoop env fuel token topics with
      | none => none
      | some (tevts, .error _) => some (l.1 ++ logEvts ++ tevts, .error ())
      | some (tevts, .ok _) =>
        match unitsLoop env fuel token us with
        | none => none
        | some (uevts, r) => some (l.1 ++ logEvts ++ tevts ++ uevts, r)

/-- The two body fields of the inbound run request.  A `none` field models a
missing JSON field (`undefined`). -/
structure RunRequest where
  accessToken : Option String
  unitId : Option String
deriving Repr, DecidableEq

/-- JavaScript truthiness of an optional string field: `undefined`/`null`
and the empty string are falsy. -/
def truthy : Option String → Bool
  | none => false
  | some s => !(s == "")

/-- `unitId.split(' ')` of the source: split on every single space
character, keeping empty segments, exactly as the JavaScript `split`. -/
def splitSpacesAux : List Char → List Char → List String
  | [], acc => [String.mk acc.reverse]
  | c :: cs, acc =>
    if c = ' ' then String.mk acc.reverse :: splitSpacesAux cs []
    else splitSpacesAux cs (c :: acc)

/-- See `splitSpacesAux`. -/
def splitSpaces (s : String) : List String := splitSpacesAux s.data []

/-- The `app.post('/')` handler.  `accessTokenVar` is the value of the
process-wide `ACCESS_TOKEN` variable before the request.  The result is
`(new ACCESS_TOKEN, events of the run, HTTP status)`; `none` means the run
diverged inside a probe.  The source rejects with 400 when
`!accessToken || !unitId`, before assigning `ACCESS_TOKEN` and before any
remote call; otherwise it installs the token, walks the units, answers 200
on success and 500 when an error propagated out of the loops. -/
def handlePost (env : Env) (fuel : Nat) (accessTokenVar : Option String)
    (req : RunRequest) : Option (Option String × List Event × Nat) :=
  if truthy req.accessToken && truthy req.unitId then
    let a := req.accessToken.getD ""
    let unitIds := splitSpaces (req.unitId.getD "")
    match unitsLoop env fuel a unitIds with
    | none => none
    | some (evts, .error _) => some (some a, evts, 500)
    | some (evts, .ok _) => some (some a, evts, 200)
  else
    some (accessTokenVar, [], 400)

/-- Concatenation of report blocks, in order, with no separator of its own
(each block already ends in a blank line). -/
def concatBlocks : List String → String
  | [] => ""
  | b :: bs => b ++ concatBlocks bs

/-- The lines of one report block, without terminators. -/
def lineList (q : Question) (correctOption : Option String) : List String :=
  ["Question ID: " ++ toString q.questionId, "Question: " ++ q.question, "Options:"]
    ++ q.options.map (fun kv => kv.1 ++ ": " ++ kv.2)
    ++ ["Correct Option: " ++ correctOption.getD "Not locked"]

/-- Join lines, terminating each with a newline. -/
def joinLines : List String → String
  | [] => ""
  | l :: ls => l ++ "\n" ++ joinLines ls

/-- The question loop of `attemptOneQuiz`, recorded as the list of report
blocks instead of the concatenated string (used to state the report-format
theorems; `runQuestions_eq_runBlocks` ties it to `runQuestions`). -/
def runBlocks (respond : Nat → Nat → Except Unit Int) (fuel : Nat) :
    List Question → Int → Option (Int × List String)
  | [], currentScore => some (currentScore, [])
  | q :: qs, currentScore =>
    match (attemptQuiz (respond q.questionId) currentScore fuel).1 with
    | none => none
    | some (s, co) =>
      match runBlocks respond fuel qs s with
      | none => none
      | some (fin, bs) => some (fin, questionBlock q co :: bs)

/-- Response stream for closed prober instances: every submission round-trip
succeeds and leaves the score at 0. -/
def wRespondZero : Nat → Except Unit Int := fun _ => .ok 0

/-- Response stream for a closed prober instance: remote failure on the 2nd
candidate, the 1st leaving the score unchanged. -/
def wRespondErr2 : Nat → Except Unit Int := fun j => if j = 1 then .error () else .ok 0

/-- Response stream for a closed prober instance: the 4th candidate (`d`)
raises the score to 1, the first three leave it at 0. -/
def wRespondD : Nat → Except Unit Int := fun j => if j = 3 then .ok 1 else .ok 0

/-- Environment used by the closed runner instances: one quiz with no
questions, every remote call succeeding. -/
def wEnvRunner : Env where
  listTopics := fun _ => .ok []
  quizResult := fun _ => .ok true
  createQuiz := fun _ => .ok { quizId := 7, questions := [] }
  respond := fun _ _ => .ok 0
  writeFile := fun _ _ => .ok ()

/-- Environment for closed orchestrator instances: one unit with one
eligible topic whose quiz is already passed. -/
def wEnvPassed : Env where
  listTopics := fun _ => .ok [{ id := 1, name := "t1", contentFlag := true }]
  quizResult := fun _ => .ok true
  createQuiz := fun _ => .error ()
  respond := fun _ _ => .ok 0
  writeFile := fun _ _ => .ok ()

/-- Environment for closed orchestrator instances: one unit with two
eligible topics, both unpassed, and a runner whose create-quiz call fails. -/
def wEnvTopicFail : Env where
  listTopics := fun _ => .ok
    [{ id := 1, name := "t1", contentFlag := true },
      { id := 2, name := "t2", contentFlag := true }]
  quizResult := fun _ => .ok false
  createQuiz := fun _ => .error ()
  respond := fun _ _ => .ok 0
  writeFile := fun _ _ => .ok ()

/-- Environment for closed orchestrator instances: one unit with two
eligible topics, topic 1 passed and topic 2 not, and a runner that succeeds
(one quiz with no questions). -/
def wEnvOnePassed : Env where
  listTopics := fun _ => .ok
    [{ id := 1, name := "t1", contentFlag := true },
      { id := 2, name := "t2", contentFlag := true }]
  quizResult := fun tid => .ok (tid == 1)
  createQuiz := fun _ => .ok { quizId := 9, questions := [] }
  respond := fun _ _ => .ok 0
  writeFile := fun _ _ => .ok ()

/-- Unfolding equation of `attemptQuizGo` at zero fuel. -/
theorem attemptQuizGo_zero (respond : Nat → Except Unit Int) (cs score : Int)
    (i : Nat) (co : Option String) (trace : List (Option String)) :
    attemptQuizGo respond cs 0 score i co trace = (none, trace) := rfl

/-- Unfolding equation of `attemptQuizGo` for one loop iteration. -/
theorem attemptQuizGo_succ (respond : Nat → Except Unit Int) (cs : Int)
    (fuel : Nat) (score : Int) (i : Nat) (co : Option String)
    (trace : List (Option String)) :
    attemptQuizGo respond cs (fuel + 1) score i co trace =
      if score = cs + 1 then (some (score, co), trace)
      else
        match respond i with
        | .error _ => (some (score, co), trace ++ [options.get? i])
        | .ok s =>
            attemptQuizGo respond cs fuel s (i + 1)
              (if s = cs + 1 then options.get? i else co)
              (trace ++ [options.get? i]) := rfl

/-- Unfolding equation of `attemptQuizGo` when the score is not yet
`currentScore + 1` and the next round-trip fails: the source `catch`es and
`break`s, returning the current state. -/
theorem attemptQuizGo_err (respond : Nat → Except Unit Int) (cs : Int)
    (fuel : Nat) (score : Int) (i : Nat) (co : Option String)
    (trace : List (Option String)) (hscore : ¬ score = cs + 1)
    (h : respond i = .error ()) :
    attemptQuizGo respond cs (fuel + 1) score i co trace =
      (some (score, co), trace ++ [options.get? i]) := by
  rw [attemptQuizGo_succ, if_neg hscore, h]

/-- Unfolding equation of `attemptQuizGo` when the score is not yet
`currentScore + 1` and the next round-trip returns score `s`. -/
theorem attemptQuizGo_ok (respond : Nat → Except Unit Int) (cs : Int)
    (fuel : Nat) (score : Int) (i : Nat) (co : Option String)
    (trace : List (Option String)) (s : Int) (hscore : ¬ score = cs + 1)
    (h : respond i = .ok s) :
    attemptQuizGo respond cs (fuel + 1) score i co trace =
      attemptQuizGo respond cs fuel s (i + 1)
        (if s = cs + 1 then options.get? i else co)
        (trace ++ [options.get? i]) := by
  rw [attemptQuizGo_succ, if_neg hscore, h]

/-- Advancing the prober loop over `k` responses that leave the score
unchanged: the loop neither returns nor records a lock, it just submits the
next `k` candidates (in-range or not) and moves the index forward. -/
theorem attemptQuizGo_unchanged (respond : Nat → Except Unit Int) (cs : Int)
    (fuel : Nat) :
    ∀ (k i : Nat) (co : Option String) (trace : List (Option String)),
      (∀ j, j < k → respond (i + j) = .ok cs) →
      attemptQuizGo respond cs (k + fuel) cs i co trace =
        attemptQuizGo respond cs fuel cs (i + k) co
          (trace ++ (List.range k).map (fun j => options.get? (i + j))) := by
  intro k
  induction k with
  | zero => intro i co trace _; simp
  | succ k ih =>
    intro i co trace h
    have hstep : (k + 1) + fuel = (k + fuel) + 1 := by omega
    rw [hstep]
    have hcs : ¬ (cs = cs + 1) := by omega
    have h0 : respond i = .ok cs := by simpa using h 0 (by omega)
    have ih' := ih (i + 1) co (trace ++ [options.get? i]) (fun j hj => by
      have hj' := h (j + 1) (by omega)
      have hidx : i + (j + 1) = (i + 1) + j := by omega
      rwa [hidx] at hj')
    rw [attemptQuizGo_ok respond cs (k + fuel) cs i co trace cs hcs h0,
      if_neg hcs, ih']
    have hidx2 : (i + 1) + k = i + (k + 1) := by omega
    have htr : (trace ++ [options.get? i])
        ++ (List.range k).map (fun j => options.get? ((i + 1) + j)) =
        trace ++ (List.range (k + 1)).map (fun j => options.get? (i + j)) := by
      have hfun : (fun j => options.get? ((i + 1) + j)) =
          ((fun j => options.get? (i + j)) ∘ Nat.succ) := by
        funext j
        simp only [Function.comp_apply]
        congr 1
        omega
      rw [List.append_assoc, List.range_succ_eq_map, List.map_cons,
        List.map_map, List.singleton_append, hfun]
      simp
    rw [hidx2, htr]

/-- C1: When every submission leaves the score unchanged (all four options
wrong, no remote failure), the source's prober loop never terminates: for
every iteration bound `fuel` it has not returned, and it has issued one
submission per iteration — including submissions for the out-of-range
candidates `options[4], options[5], ...` (`undefined`).  This contradicts
the specified defensive exit "return `{score: currentScore, lockedOption:
none}` after all four options are exhausted". -/
theorem attemptQuiz_exhausted_options_never_returns (cs : Int)
    (respond : Nat → Except Unit Int) (h : ∀ j, respond j = .ok cs) (fuel : Nat) :
    (attemptQuiz respond cs fuel).1 = none ∧
      (attemptQuiz respond cs fuel).2 =
        (List.range fuel).map (fun j => options.get? j) := by
  have key := attemptQuizGo_unchanged respond cs 0 fuel 0 none []
    (fun j _ => by simpa using h j)
  rw [Nat.add_zero] at key
  unfold attemptQuiz
  rw [key, attemptQuizGo_zero]
  exact ⟨rfl, by simp⟩

/-- Closed instance of `attemptQuiz_exhausted_options_never_returns`. -/
theorem attemptQuiz_exhausted_options_never_returns_witness :
    (attemptQuiz wRespondZero 0 7).1 = none ∧
      (attemptQuiz wRespondZero 0 7).2 =
        [some "a", some "b", some "c", some "d", none, none, none] := by
  have h := attemptQuiz_exhausted_options_never_returns 0 wRespondZero
    (fun _ => rfl) 7
  exact ⟨h.1, by rw [h.2]; decide⟩

/-- C6: The prober's candidate index is advanced with no bound check against
the four-element `options` array: when the first four submissions all leave
the score unchanged and no remote failure occurs, the fifth submission is
issued with candidate `options.get? 4 = none` — the JavaScript `undefined`
read past the end of the array.  Array indexing in the embedding is total
(`List.get?`) and its out-of-range branch is reachable. -/
theorem attemptQuiz_submits_out_of_range (cs : Int)
    (respond : Nat → Except Unit Int) (h : ∀ j, respond j = .ok cs) :
    (attemptQuiz respond cs 5).2 =
      [some "a", some "b", some "c", some "d", none] := by
  have key := attemptQuizGo_unchanged respond cs 0 5 0 none []
    (fun j _ => by simpa using h j)
  rw [Nat.add_zero] at key
  unfold attemptQuiz
  rw [key, attemptQuizGo_zero]
  decide

/-- Closed instance of `attemptQuiz_submits_out_of_range`. -/
theorem attemptQuiz_submits_out_of_range_witness :
    (attemptQuiz wRespondZero 0 5).2 =
      [some "a", some "b", some "c", some "d", none] :=
  attemptQuiz_submits_out_of_range 0 wRespondZero (fun _ => rfl)

/-- C3: If the first `k` submissions return an unchanged score and the
`(k+1)`-th remote round-trip fails, the prober aborts at once and returns
`{score: currentScore, correctOption: null}` — the input score unchanged and
no lock — having submitted exactly the first `k+1` candidates.  Moreover the
runner does not retry the failed question: the question loop continues with
the remaining questions only, carrying the unchanged score. -/
theorem attemptQuiz_failure_returns_unchanged (cs : Int)
    (respond : Nat → Except Unit Int) (k fuel : Nat)
    (hok : ∀ j, j < k → respond j = .ok cs) (herr : respond k = .error ())
    (hfuel : k + 1 ≤ fuel) :
    (attemptQuiz respond cs fuel).1 = some (cs, none) ∧
    (attemptQuiz respond cs fuel).2 =
      (List.range (k + 1)).map (fun j => options.get? j) ∧
    (∀ (respond2 : Nat → Nat → Except Unit Int) (q : Question)
        (qs : List Question) (content : String),
      respond2 q.questionId = respond →
      runQuestions respond2 fuel (q :: qs) cs content =
        runQuestions respond2 fuel qs cs (content ++ questionBlock q none)) := by
  obtain ⟨m, rfl⟩ : ∃ m, fuel = k + (m + 1) := ⟨fuel - k - 1, by omega⟩
  have key := attemptQuizGo_unchanged respond cs (m + 1) k 0 none []
    (fun j hj => by simpa using hok j hj)
  have hcs : ¬ (cs = cs + 1) := by omega
  simp only [Nat.zero_add, List.nil_append] at key
  have h1 : (attemptQuiz respond cs (k + (m + 1))).1 = some (cs, none) ∧
      (attemptQuiz respond cs (k + (m + 1))).2 =
        (List.range (k + 1)).map (fun j => options.get? j) := by
    unfold attemptQuiz
    rw [key, attemptQuizGo_err respond cs m cs k none _ hcs herr]
    refine ⟨rfl, ?_⟩
    simp [List.range_succ]
  refine ⟨h1.1, h1.2, ?_⟩
  intro respond2 q qs content hq
  have : runQuestions respond2 (k + (m + 1)) (q :: qs) cs content =
      match (attemptQuiz (respond2 q.questionId) cs (k + (m + 1))).1 with
      | none => none
      | some (s, co) =>
        runQuestions respond2 (k + (m + 1)) qs s (content ++ questionBlock q co) := rfl
  rw [this, hq, h1.1]

/-- Closed instance of `attemptQuiz_failure_returns_unchanged`. -/
theorem attemptQuiz_failure_returns_unchanged_witness :
    (attemptQuiz wRespondErr2 0 3).1 = some (0, none) ∧
      (attemptQuiz wRespondErr2 0 3).2 = [some "a", some "b"] := by
  have h := attemptQuiz_failure_returns_unchanged 0 wRespondErr2 1 3
    (by intro j hj; interval_cases j; rfl) (by rfl) (by omega)
  exact ⟨h.1, by rw [h.2.1]; decide⟩

/-- C4: If the first `k` submissions (`k < 4`) leave the score unchanged and
the `(k+1)`-th returns `currentScore + 1`, the prober stops right there:
it has issued exactly the `k+1` submissions `a, b, ...` in the fixed order,
locks the `(k+1)`-th option and returns `currentScore + 1`.  For `k = 3`
this is the claim's `d` case: exactly 4 submissions in order `a, b, c, d`,
lock `d`, final score `currentScore + 1`. -/
theorem attemptQuiz_first_increment_locks (cs : Int)
    (respond : Nat → Except Unit Int) (k fuel : Nat)
    (_hk : k < 4) (hok : ∀ j, j < k → respond j = .ok cs)
    (hinc : respond k = .ok (cs + 1)) (hfuel : k + 2 ≤ fuel) :
    (attemptQuiz respond cs fuel).1 = some (cs + 1, options.get? k) ∧
    (attemptQuiz respond cs fuel).2 =
      (List.range (k + 1)).map (fun j => options.get? j) := by
  obtain ⟨m, rfl⟩ : ∃ m, fuel = k + (m + 2) := ⟨fuel - k - 2, by omega⟩
  have key := attemptQuizGo_unchanged respond cs (m + 2) k 0 none []
    (fun j hj => by simpa using hok j hj)
  have hcs : ¬ (cs = cs + 1) := by omega
  simp only [Nat.zero_add, List.nil_append] at key
  unfold attemptQuiz
  rw [key, attemptQuizGo_ok respond cs (m + 1) cs k none _ (cs + 1) hcs hinc,
    if_pos rfl, attemptQuizGo_succ, if_pos rfl]
  refine ⟨rfl, ?_⟩
  simp [List.range_succ]

/-- Closed instance of `attemptQuiz_first_increment_locks`. -/
theorem attemptQuiz_first_increment_locks_witness :
    (attemptQuiz wRespondD 0 5).1 = some (1, some "d") ∧
      (attemptQuiz wRespondD 0 5).2 =
        [some "a", some "b", some "c", some "d"] := by
  have h := attemptQuiz_first_increment_locks 0 wRespondD 3 5 (by omega)
    (by intro j hj; interval_cases j <;> rfl) (by rfl) (by omega)
  refine ⟨?_, by rw [h.2]; decide⟩
  rw [h.1]; decide

/-- `joinLines` distributes over list append. -/
theorem joinLines_append : ∀ (a b : List String),
    joinLines (a ++ b) = joinLines a ++ joinLines b := by
  intro a b
  induction a with
  | nil => simp [joinLines]
  | cons l ls ih => simp [joinLines, ih, String.append_assoc]

/-- The `Options:` section is the newline-joined list of `key: text` lines. -/
theorem optionLines_eq_joinLines (opts : List (String × String)) :
    optionLines opts = joinLines (opts.map (fun kv => kv.1 ++ ": " ++ kv.2)) := by
  induction opts with
  | nil => rfl
  | cons kv rest ih => simp [optionLines, joinLines, ih, String.append_assoc]

/-- One report block is its lines, each terminated by a newline, followed by
one extra newline — i.e. the block ends in a blank line. -/
theorem questionBlock_eq_lines (q : Question) (co : Option String) :
    questionBlock q co = joinLines (lineList q co) ++ "\n" := by
  have hopts : ("Options:\n" : String) = "Options:" ++ "\n" := by decide
  have hnl : ("\n\n" : String) = "\n" ++ "\n" := by decide
  simp only [questionBlock, lineList, joinLines_append, joinLines,
    optionLines_eq_joinLines, hopts, hnl, String.append_empty,
    String.empty_append, String.append_assoc, List.cons_append,
    List.nil_append, List.append_assoc, List.append_eq]

/-- Reading the candidate array at any index yields either one of the four
option keys or `none` (the out-of-range `undefined`). -/
theorem options_get?_valid (i : Nat) :
    options.get? i = none ∨ options.get? i ∈ options.map some := by
  match i with
  | 0 => right; decide
  | 1 => right; decide
  | 2 => right; decide
  | 3 => right; decide
  | n+4 => left; rfl

/-- Invariant of the prober loop: the `correctOption` local is always `null`
or one of the four option keys. -/
theorem attemptQuizGo_lockedOption_valid (respond : Nat → Except Unit Int)
    (cs : Int) :
    ∀ (fuel : Nat) (score : Int) (i : Nat) (co : Option String)
      (trace : List (Option String)),
      (co = none ∨ co ∈ options.map some) →
      ∀ p, (attemptQuizGo respond cs fuel score i co trace).1 = some p →
        p.2 = none ∨ p.2 ∈ options.map some := by
  intro fuel
  induction fuel with
  | zero =>
    intro score i co trace _ p hp
    rw [attemptQuizGo_zero] at hp
    cases hp
  | succ fuel ih =>
    intro score i co trace hco p hp
    rw [attemptQuizGo_succ] at hp
    by_cases hs : score = cs + 1
    · rw [if_pos hs] at hp
      cases hp
      exact hco
    · rw [if_neg hs] at hp
      cases hresp : respond i with
      | error e =>
        rw [hresp] at hp
        cases hp
        exact hco
      | ok s =>
        rw [hresp] at hp
        refine ih s (i + 1) _ _ ?_ p hp
        by_cases hlock : s = cs + 1
        · rw [if_pos hlock]
          exact options_get?_valid i
        · rw [if_neg hlock]
          exact hco

/-- The locked option returned by the prober is `null` or one of the four
option keys. -/
theorem attemptQuiz_lockedOption_valid (respond : Nat → Except Unit Int)
    (cs : Int) (fuel : Nat) (s : Int) (co : Option String)
    (h : (attemptQuiz respond cs fuel).1 = some (s, co)) :
    co = none ∨ co ∈ options.map some :=
  attemptQuizGo_lockedOption_valid respond cs fuel cs 0 none []
    (Or.inl rfl) (s, co) h

/-- The accumulated report string of the question loop is the concatenation
of the per-question blocks, appended to the incoming accumulator. -/
theorem runQuestions_eq_runBlocks (respond : Nat → Nat → Except Unit Int)
    (fuel : Nat) :
    ∀ (qs : List Question) (score : Int) (content : String),
      runQuestions respond fuel qs score content =
        match runBlocks respond fuel qs score with
        | none => none
        | some (fin, bs) => some (fin, content ++ concatBlocks bs) := by
  intro qs
  induction qs with
  | nil => intro score content; simp [runQuestions, runBlocks, concatBlocks]
  | cons q qs ih =>
    intro score content
    cases hpr : (attemptQuiz (respond q.questionId) score fuel).1 with
    | none => simp [runQuestions, runBlocks, hpr]
    | some pr =>
      obtain ⟨s, co⟩ := pr
      simp only [runQuestions, runBlocks, hpr]
      rw [ih]
      cases hb : runBlocks respond fuel qs s with
      | none => rfl
      | some fb =>
        obtain ⟨fin, bs⟩ := fb
        simp [concatBlocks, String.append_assoc]

/-- The question loop produces one report block per question. -/
theorem runBlocks_length (respond : Nat → Nat → Except Unit Int) (fuel : Nat) :
    ∀ (qs : List Question) (score : Int) (fin : Int) (bs : List String),
      runBlocks respond fuel qs score = some (fin, bs) →
      bs.length = qs.length := by
  intro qs
  induction qs with
  | nil =>
    intro score fin bs h
    simp only [runBlocks] at h
    cases h
    rfl
  | cons q qs ih =>
    intro score fin bs h
    cases hpr : (attemptQuiz (respond q.questionId) score fuel).1 with
    | none => simp [runBlocks, hpr] at h
    | some pr =>
      obtain ⟨s, co⟩ := pr
      simp only [runBlocks, hpr] at h
      cases hb : runBlocks respond fuel qs s with
      | none => simp [hb] at h
      | some fb =>
        obtain ⟨fin', bs'⟩ := fb
        simp only [hb, Option.some.injEq, Prod.mk.injEq] at h
        obtain ⟨hfin, hbs⟩ := h
        subst hbs
        simp [ih s fin' bs' hb]

/-- Every block produced by the question loop is the rendering of one of the
questions with a locked option that is `null` or one of the four keys. -/
theorem runBlocks_mem (respond : Nat → Nat → Except Unit Int) (fuel : Nat) :
    ∀ (qs : List Question) (score : Int) (fin : Int) (bs : List String),
      runBlocks respond fuel qs score = some (fin, bs) →
      ∀ b ∈ bs, ∃ q co, q ∈ qs ∧ b = questionBlock q co ∧
        (co = none ∨ co ∈ options.map some) := by
  intro qs
  induction qs with
  | nil =>
    intro score fin bs h
    simp only [runBlocks] at h
    cases h
    intro b hb
    cases hb
  | cons q qs ih =>
    intro score fin bs h
    cases hpr : (attemptQuiz (respond q.questionId) score fuel).1 with
    | none => simp [runBlocks, hpr] at h
    | some pr =>
      obtain ⟨s, co⟩ := pr
      simp only [runBlocks, hpr] at h
      cases hb : runBlocks respond fuel qs s with
      | none => simp [hb] at h
      | some fb =>
        obtain ⟨fin', bs'⟩ := fb
        simp only [hb, Option.some.injEq, Prod.mk.injEq] at h
        obtain ⟨hfin, hbs⟩ := h
        subst hbs
        intro b hbmem
        rcases List.mem_cons.mp hbmem with hhead | htail
        · exact ⟨q, co, List.mem_cons_self q qs, hhead,
            attemptQuiz_lockedOption_valid _ score fuel s co hpr⟩
        · obtain ⟨q', co', hq', hb', hco'⟩ := ih s fin' bs' hb b htail
          exact ⟨q', co', List.mem_cons_of_mem q hq', hb', hco'⟩

/-- C5: The quiz runner's score bookkeeping.  First conjunct: a completed run
of the runner is exactly the question loop started at `currentScore = 0`, so
the returned `finalScore` is the score threaded through the probes from 0.
Second conjunct: after each question, the score handed to the rest of the
questions is precisely the score the prober returned for that question —
whatever the locked option `co` was (including `none`). -/
theorem attemptOneQuiz_score_threading (env : Env) (fuel : Nat)
    (token : String) (topicId : Nat) (topicName : String)
    (payload : QuizPayload) (hcreate : env.createQuiz topicId = .ok payload) :
    (∀ (evts : List Event) (qid : Nat) (fin : Int),
      attemptOneQuiz env fuel token topicId topicName = some (evts, .ok (qid, fin)) →
      ∃ content, runQuestions env.respond fuel payload.questions 0 "" =
        some (fin, content)) ∧
    (∀ (q : Question) (qs : List Question) (score s : Int) (co : Option String)
        (content : String),
      (attemptQuiz (env.respond q.questionId) score fuel).1 = some (s, co) →
      runQuestions env.respond fuel (q :: qs) score content =
        runQuestions env.respond fuel qs s (content ++ questionBlock q co)) := by
  constructor
  · intro evts qid fin h
    simp only [attemptOneQuiz, hcreate] at h
    cases hq : runQuestions env.respond fuel payload.questions 0 "" with
    | none => simp [hq] at h
    | some pr =>
      obtain ⟨fin', content⟩ := pr
      simp only [hq] at h
      cases hw : env.writeFile (sanitizeTopicName topicName ++ ".txt") content with
      | error e => simp [hw] at h
      | ok u =>
        simp only [hw, Option.some.injEq, Prod.mk.injEq, Except.ok.injEq] at h
        obtain ⟨hevts, hqid, hfin⟩ := h
        refine ⟨content, ?_⟩
        rw [hfin]
  · intro q qs score s co content hp
    have hstep : runQuestions env.respond fuel (q :: qs) score content =
        match (attemptQuiz (env.respond q.questionId) score fuel).1 with
        | none => none
        | some (s', co') =>
          runQuestions env.respond fuel qs s' (content ++ questionBlock q co') := rfl
    rw [hstep, hp]

/-- Closed instance of `attemptOneQuiz_score_threading`. -/
theorem attemptOneQuiz_score_threading_witness :
    ∃ content, runQuestions wEnvRunner.respond 1
      ({ quizId := 7, questions := [] } : QuizPayload).questions 0 "" =
        some (0, content) :=
  (attemptOneQuiz_score_threading wEnvRunner 1 "tok" 1 "t"
      { quizId := 7, questions := [] } rfl).1
    [.createQuizCall "tok" 1, .writeFile "t.txt" ""] 7 0 rfl

/-- C8: A runner execution that completes writes exactly one report file,
whose content is the concatenation of one block per question of the quiz, in
order; each block is a newline-terminated list of lines — `Question ID: …`,
`Question: …`, `Options:`, one `key: text` line per option, and
`Correct Option: v` — followed by one extra newline (the blank-line block
separator), and the value `v` is one of the keys `a`, `b`, `c`, `d` or the
literal `Not locked`. -/
theorem attemptOneQuiz_report_format (env : Env) (fuel : Nat) (token : String)
    (topicId : Nat) (topicName : String) (payload : QuizPayload)
    (evts : List Event) (r : Nat × Int)
    (hcreate : env.createQuiz topicId = .ok payload)
    (hrun : attemptOneQuiz env fuel token topicId topicName = some (evts, .ok r)) :
    ∃ blocks : List String,
      evts = [.createQuizCall token topicId,
        .writeFile (sanitizeTopicName topicName ++ ".txt") (concatBlocks blocks)] ∧
      blocks.length = payload.questions.length ∧
      ∀ b ∈ blocks, ∃ q co, q ∈ payload.questions ∧
        b = joinLines (lineList q co) ++ "\n" ∧
        (co.getD "Not locked" ∈ (["a", "b", "c", "d"] : List String) ∨
          co.getD "Not locked" = "Not locked") := by
  simp only [attemptOneQuiz, hcreate] at hrun
  rw [runQuestions_eq_runBlocks] at hrun
  cases hb : runBlocks env.respond fuel payload.questions 0 with
  | none => simp [hb] at hrun
  | some fb =>
    obtain ⟨fin, bs⟩ := fb
    simp only [hb] at hrun
    rw [String.empty_append] at hrun
    cases hw : env.writeFile (sanitizeTopicName topicName ++ ".txt")
        (concatBlocks bs) with
    | error e => simp [hw] at hrun
    | ok u =>
      simp only [hw, Option.some.injEq, Prod.mk.injEq, Except.ok.injEq] at hrun
      obtain ⟨hevts, hr⟩ := hrun
      subst hevts
      refine ⟨bs, rfl, runBlocks_length env.respond fuel payload.questions 0 fin bs hb, ?_⟩
      intro b hbmem
      obtain ⟨q, co, hq, hbeq, hco⟩ :=
        runBlocks_mem env.respond fuel payload.questions 0 fin bs hb b hbmem
      refine ⟨q, co, hq, by rw [hbeq, questionBlock_eq_lines], ?_⟩
      rcases hco with hnone | hmem
      · right
        rw [hnone]
        rfl
      · left
        simp only [options, List.map_cons, List.map_nil, List.mem_cons,
          List.mem_singleton, List.not_mem_nil, or_false] at hmem
        rcases hmem with h | h | h | h
        all_goals rw [h]
        all_goals decide

/-- Closed instance of `attemptOneQuiz_report_format`. -/
theorem attemptOneQuiz_report_format_witness :
    ∃ blocks : List String,
      ([Event.createQuizCall "tok" 1,
          Event.writeFile "t.txt" ""] : List Event) =
        [.createQuizCall "tok" 1,
          .writeFile (sanitizeTopicName "t" ++ ".txt") (concatBlocks blocks)] ∧
      blocks.length =
        ({ quizId := 7, questions := [] } : QuizPayload).questions.length ∧
      ∀ b ∈ blocks, ∃ q co,
        q ∈ ({ quizId := 7, questions := [] } : QuizPayload).questions ∧
        b = joinLines (lineList q co) ++ "\n" ∧
        (co.getD "Not locked" ∈ (["a", "b", "c", "d"] : List String) ∨
          co.getD "Not locked" = "Not locked") :=
  attemptOneQuiz_report_format wEnvRunner 1 "tok" 1 "t"
    { quizId := 7, questions := [] }
    [.createQuizCall "tok" 1, .writeFile "t.txt" ""] (7, 0) rfl rfl

/-- Case analysis for `Except Unit`. -/
theorem exceptCasesUnit {α : Type} (x : Except Unit α) :
    x = .error () ∨ ∃ a, x = .ok a := by
  cases x with
  | error e => cases e; exact Or.inl rfl
  | ok a => exact Or.inr ⟨a, rfl⟩

/-- Event bookkeeping of one runner invocation: whenever the runner finishes
(successfully or not), it has issued exactly one create-quiz call — for the
topic it was invoked on, with the token it was invoked with — and none of
its events is a skip log; every remote call it makes carries its token. -/
theorem attemptOneQuiz_events (env : Env) (fuel : Nat) (token : String)
    (tid : Nat) (name : String) (evts : List Event)
    (res : Except Unit (Nat × Int))
    (h : attemptOneQuiz env fuel token tid name = some (evts, res)) :
    evts.filter Event.isCreateQuizCall = [.createQuizCall token tid] ∧
    (∀ e ∈ evts, e.isSkipLog = false) ∧
    (∀ e ∈ evts, e.remoteToken = none ∨ e.remoteToken = some token) := by
  rcases exceptCasesUnit (env.createQuiz tid) with hc | ⟨payload, hc⟩
  · simp only [attemptOneQuiz, hc, Option.some.injEq, Prod.mk.injEq] at h
    obtain ⟨hevts, -⟩ := h
    subst hevts
    refine ⟨by simp [List.filter, Event.isCreateQuizCall], ?_, ?_⟩
    · intro e he
      simp only [List.mem_singleton] at he
      subst he
      rfl
    · intro e he
      simp only [List.mem_singleton] at he
      subst he
      exact Or.inr rfl
  · rcases (runQuestions env.respond fuel payload.questions 0 "").eq_none_or_eq_some
      with hq | ⟨pr, hq⟩
    · simp [attemptOneQuiz, hc, hq] at h
    · obtain ⟨fin, content⟩ := pr
      have hevts : evts =
          [.createQuizCall token tid,
            .writeFile (sanitizeTopicName name ++ ".txt") content] := by
        rcases exceptCasesUnit
            (env.writeFile (sanitizeTopicName name ++ ".txt") content) with hw | ⟨u, hw⟩
        · simp only [attemptOneQuiz, hc, hq, hw, Option.some.injEq,
            Prod.mk.injEq] at h
          exact h.1.symm
        · simp only [attemptOneQuiz, hc, hq, hw, Option.some.injEq,
            Prod.mk.injEq] at h
          exact h.1.symm
      subst hevts
      refine ⟨by simp [List.filter, Event.isCreateQuizCall, Event.isWriteFile], ?_, ?_⟩
      · intro e he
        simp only [List.mem_cons, List.mem_singleton] at he
        rcases he with he | he | he
        · subst he; rfl
        · subst he; rfl
        · cases he
      · intro e he
        simp only [List.mem_cons, List.mem_singleton] at he
        rcases he with he | he | he
        · subst he; exact Or.inr rfl
        · subst he; exact Or.inl rfl
        · cases he

/-- Every remote call issued by the topics loop carries the token the loop
was started with. -/
theorem topicsLoop_token (env : Env) (fuel : Nat) (token : String) :
    ∀ (ts : List TopicRef) (r : List Event × Except Unit Unit),
      topicsLoop env fuel token ts = some r →
      ∀ e ∈ r.1, e.remoteToken = none ∨ e.remoteToken = some token := by
  intro ts
  induction ts with
  | nil =>
    intro r h e he
    simp only [topicsLoop, Option.some.injEq] at h
    subst h
    cases he
  | cons t ts ih =>
    intro r h e he
    rcases exceptCasesUnit (env.quizResult t.topicId) with hres | ⟨b, hres⟩
    · simp only [topicsLoop, resultQuiz, hres, Option.some.injEq] at h
      subst h
      simp only [List.mem_singleton] at he
      subst he
      exact Or.inr rfl
    · cases b with
      | true =>
        rcases (topicsLoop env fuel token ts).eq_none_or_eq_some
          with h2 | ⟨⟨evts2, rr2⟩, h2⟩
        · simp [topicsLoop, resultQuiz, hres, h2] at h
        · simp only [topicsLoop, resultQuiz, hres, h2, Option.some.injEq] at h
          subst h
          simp only [List.mem_append, List.mem_cons, List.mem_singleton,
            List.not_mem_nil, or_false] at he
          rcases he with (he | he) | he
          · subst he; exact Or.inr rfl
          · subst he; exact Or.inl rfl
          · exact ih (evts2, rr2) h2 e he
      | false =>
        rcases (attemptOneQuiz env fuel token t.topicId t.topicName).eq_none_or_eq_some
          with h3 | ⟨⟨revts, res⟩, h3⟩
        · simp [topicsLoop, resultQuiz, hres, h3] at h
        · have hrev := attemptOneQuiz_events env fuel token t.topicId t.topicName
            revts res h3
          cases res with
          | error eu =>
            cases eu
            simp only [topicsLoop, resultQuiz, hres, h3, Option.some.injEq] at h
            subst h
            simp only [List.mem_append, List.mem_cons, List.mem_singleton,
              List.not_mem_nil, or_false] at he
            rcases he with (he | he) | he
            · subst he; exact Or.inr rfl
            · subst he; exact Or.inl rfl
            · exact hrev.2.2 e he
          | ok v =>
            rcases (topicsLoop env fuel token ts).eq_none_or_eq_some
              with h2 | ⟨⟨evts2, rr2⟩, h2⟩
            · simp [topicsLoop, resultQuiz, hres, h3, h2] at h
            · simp only [topicsLoop, resultQuiz, hres, h3, h2,
                Option.some.injEq] at h
              subst h
              simp only [List.mem_append, List.mem_cons, List.mem_singleton,
                List.not_mem_nil, or_false] at he
              rcases he with (((he | he) | he) | he) | he
              · subst he; exact Or.inr rfl
              · subst he; exact Or.inl rfl
              · exact hrev.2.2 e he
              · subst he; exact Or.inl rfl
              · exact ih (evts2, rr2) h2 e he

/-- Every remote call issued by the units loop carries the token the loop
was started with. -/
theorem unitsLoop_token (env : Env) (fuel : Nat) (token : String) :
    ∀ (us : List String) (r : List Event × Except Unit Unit),
      unitsLoop env fuel token us = some r →
      ∀ e ∈ r.1, e.remoteToken = none ∨ e.remoteToken = some token := by
  intro us
  induction us with
  | nil =>
    intro r h e he
    simp only [unitsLoop, Option.some.injEq] at h
    subst h
    cases he
  | cons u us ih =>
    intro r h e he
    rcases exceptCasesUnit (env.listTopics u) with hl | ⟨raw, hl⟩
    · simp only [unitsLoop, getUnitTopics, hl, Option.some.injEq] at h
      subst h
      simp only [List.mem_singleton] at he
      subst he
      exact Or.inr rfl
    · rcases (topicsLoop env fuel token (eligibleTopics raw)).eq_none_or_eq_some
        with ht | ⟨⟨tevts, tres⟩, ht⟩
      · simp [unitsLoop, getUnitTopics, hl, ht] at h
      · have htok := topicsLoop_token env fuel token (eligibleTopics raw)
          (tevts, tres) ht
        cases tres with
        | error eu =>
          cases eu
          simp only [unitsLoop, getUnitTopics, hl, ht, Option.some.injEq] at h
          subst h
          simp only [List.mem_append, List.mem_cons, List.mem_singleton,
            List.not_mem_nil, or_false, List.mem_map] at he
          rcases he with (he | ⟨t2, -, he⟩) | he
          · subst he; exact Or.inr rfl
          · subst he; exact Or.inl rfl
          · exact htok e he
        | ok v =>
          rcases (unitsLoop env fuel token us).eq_none_or_eq_some
            with hu | ⟨⟨uevts, ur⟩, hu⟩
          · simp [unitsLoop, getUnitTopics, hl, ht, hu] at h
          · simp only [unitsLoop, getUnitTopics, hl, ht, hu,
              Option.some.injEq] at h
            subst h
            simp only [List.mem_append, List.mem_cons, List.mem_singleton,
              List.not_mem_nil, or_false, List.mem_map] at he
            rcases he with ((he | ⟨t2, -, he⟩) | he) | he
            · subst he; exact Or.inr rfl
            · subst he; exact Or.inl rfl
            · exact htok e he
            · exact ih (uevts, ur) hu e he

/-- C10: Request validation and credential installation.  First conjunct: a
request missing (or carrying an empty/falsy) credential or unit-identifier
field is answered 400 with no events at all — in particular no remote call —
and the process-wide `ACCESS_TOKEN` is left unchanged.  Second conjunct:
when both fields are truthy, the returned `ACCESS_TOKEN` is the supplied
credential and every remote call of the run carries exactly that credential,
so the token was installed before the first remote call. -/
theorem handlePost_validation (env : Env) (fuel : Nat)
    (tokenVar : Option String) (req : RunRequest) :
    ((truthy req.accessToken = false ∨ truthy req.unitId = false) →
      handlePost env fuel tokenVar req = some (tokenVar, [], 400)) ∧
    (∀ a, req.accessToken = some a → truthy req.accessToken = true →
      truthy req.unitId = true →
      ∀ r, handlePost env fuel tokenVar req = some r →
        r.1 = some a ∧
        ∀ e ∈ r.2.1, e.remoteToken = none ∨ e.remoteToken = some a) := by
  constructor
  · intro hval
    rcases hval with hv | hv
    all_goals simp [handlePost, hv]
  · intro a ha hta htu r hr
    rw [ha] at hta
    simp only [handlePost, ha, hta, htu, Bool.and_self, eq_self_iff_true,
      if_true, Option.getD_some] at hr
    rcases (unitsLoop env fuel a (splitSpaces (req.unitId.getD ""))).eq_none_or_eq_some
      with hu | ⟨⟨evts, res⟩, hu⟩
    · simp [hu] at hr
    · have htok := unitsLoop_token env fuel a
        (splitSpaces (req.unitId.getD "")) (evts, res) hu
      cases res with
      | error eu =>
        cases eu
        simp only [hu, Option.some.injEq] at hr
        subst hr
        exact ⟨rfl, fun e he => htok e he⟩
      | ok v =>
        simp only [hu, Option.some.injEq] at hr
        subst hr
        exact ⟨rfl, fun e he => htok e he⟩

/-- Closed instance of `handlePost_validation`: a missing credential is
rejected with 400, no events and an unchanged token; with both fields
present the run returns the supplied token and its one remote call carries
it. -/
theorem handlePost_validation_witness :
    handlePost wEnvRunner 1 none { accessToken := none, unitId := some "u" } =
      some (none, [], 400) ∧
    ((some "tok" : Option String) = some "tok" ∧
      ∀ e ∈ [Event.listTopicsCall "tok" "u"],
        e.remoteToken = none ∨ e.remoteToken = some "tok") := by
  constructor
  · exact (handlePost_validation wEnvRunner 1 none
      { accessToken := none, unitId := some "u" }).1 (Or.inl rfl)
  · exact (handlePost_validation wEnvRunner 1 none
      { accessToken := some "tok", unitId := some "u" }).2 "tok" rfl rfl rfl
      (some "tok", [Event.listTopicsCall "tok" "u"], 200) rfl

/-- When every topic of the list reports `badge === 1` (passed), the topics
loop succeeds and issues, per topic, exactly the completion-status call
followed by the skip log — nothing else. -/
theorem topicsLoop_all_passed (env : Env) (fuel : Nat) (token : String) :
    ∀ (ts : List TopicRef),
      (∀ t ∈ ts, env.quizResult t.topicId = .ok true) →
      topicsLoop env fuel token ts =
        some (ts.flatMap
          (fun t => [.quizResultCall token t.topicId, .skipLog t.topicId]),
          .ok ()) := by
  intro ts
  induction ts with
  | nil => intro _; simp [topicsLoop]
  | cons t ts ih =>
    intro h
    have ht := h t (List.mem_cons_self t ts)
    have hrest := ih (fun t2 ht2 => h t2 (List.mem_cons_of_mem t ht2))
    simp [topicsLoop, resultQuiz, ht, hrest]

/-- When every eligible topic of every listed unit is already passed, the
whole run succeeds and its event trace contains no create-quiz call and no
file write. -/
theorem unitsLoop_all_passed (env : Env) (fuel : Nat) (token : String) :
    ∀ (us : List String),
      (∀ u ∈ us, ∃ raw, env.listTopics u = .ok raw ∧
        ∀ t ∈ eligibleTopics raw, env.quizResult t.topicId = .ok true) →
      ∃ evts, unitsLoop env fuel token us = some (evts, .ok ()) ∧
        ∀ e ∈ evts, e.isCreateQuizCall = false ∧ e.isWriteFile = false := by
  intro us
  induction us with
  | nil =>
    intro _
    refine ⟨[], by simp [unitsLoop], ?_⟩
    intro e he
    cases he
  | cons u us ih =>
    intro h
    obtain ⟨raw, hl, hpass⟩ := h u (List.mem_cons_self u us)
    obtain ⟨evts2, hu2, hprop2⟩ := ih (fun u2 hu2 => h u2 (List.mem_cons_of_mem u hu2))
    have htl := topicsLoop_all_passed env fuel token (eligibleTopics raw) hpass
    refine ⟨[Event.listTopicsCall token u] ++
      (eligibleTopics raw).map (fun t => Event.topicLog t.topicId t.topicName) ++
      (eligibleTopics raw).flatMap
        (fun t => [Event.quizResultCall token t.topicId, Event.skipLog t.topicId]) ++
      evts2, ?_, ?_⟩
    · simp [unitsLoop, getUnitTopics, hl, htl, hu2]
    · intro e he
      simp only [List.mem_append, List.mem_cons, List.mem_singleton,
        List.not_mem_nil, or_false, List.mem_map, List.mem_flatMap] at he
      rcases he with ((he | ⟨t2, -, he⟩) | ⟨t2, -, he⟩) | he
      · subst he; exact ⟨rfl, rfl⟩
      · subst he; exact ⟨rfl, rfl⟩
      · rcases he with he | he
        all_goals (subst he; exact ⟨rfl, rfl⟩)
      · exact hprop2 e he

/-- C7: Re-running the orchestrator on units whose eligible topics all
report passed performs zero quiz-attempt creations and writes zero report
files: the run answers 200 and its trace has no create-quiz call and no
file-write event — for each topic only the completion-status query (plus
log lines) is issued. -/
theorem handlePost_idempotent_when_passed (env : Env) (fuel : Nat)
    (tokenVar : Option String) (a uid : String)
    (ha : a ≠ "") (huid : uid ≠ "")
    (hunits : ∀ u ∈ splitSpaces uid, ∃ raw, env.listTopics u = .ok raw ∧
      ∀ t ∈ eligibleTopics raw, env.quizResult t.topicId = .ok true) :
    ∃ evts, handlePost env fuel tokenVar
        { accessToken := some a, unitId := some uid } =
      some (some a, evts, 200) ∧
      ∀ e ∈ evts, e.isCreateQuizCall = false ∧ e.isWriteFile = false := by
  obtain ⟨evts, hloop, hprop⟩ := unitsLoop_all_passed env fuel a (splitSpaces uid) hunits
  refine ⟨evts, ?_, hprop⟩
  have hta : truthy (some a) = true := by simp [truthy, ha]
  have htu : truthy (some uid) = true := by simp [truthy, huid]
  simp [handlePost, hta, htu, hloop]

/-- Closed instance of `handlePost_idempotent_when_passed`: one unit, one
eligible passed topic. -/
theorem handlePost_idempotent_when_passed_witness :
    ∃ evts, handlePost wEnvPassed 1 none
        { accessToken := some "tok", unitId := some "u" } =
      some (some "tok", evts, 200) ∧
      ∀ e ∈ evts, e.isCreateQuizCall = false ∧ e.isWriteFile = false := by
  refine handlePost_idempotent_when_passed wEnvPassed 1 none "tok" "u"
    (by decide) (by decide) ?_
  intro u hu
  exact ⟨[{ id := 1, name := "t1", contentFlag := true }], rfl, fun t ht => rfl⟩

/-- C2 counterexample: in a unit with two unpassed eligible topics where the
first topic's quiz runner fails (its create-quiz call errors), the whole run
aborts with a 500 answer; the second topic is never processed — its
completion-status call never appears in the trace.  This refutes the claim
that a topic-level failure is caught at topic granularity and processing
continues with the remaining topics. -/
theorem handlePost_topic_failure_cex :
    handlePost wEnvTopicFail 1 none
        { accessToken := some "tok", unitId := some "u" } =
      some (some "tok",
        [Event.listTopicsCall "tok" "u", Event.topicLog 1 "t1",
          Event.topicLog 2 "t2", Event.quizResultCall "tok" 1,
          Event.solveLog 1, Event.createQuizCall "tok" 1], 500) ∧
    Event.quizResultCall "tok" 2 ∉
      [Event.listTopicsCall "tok" "u", Event.topicLog 1 "t1",
        Event.topicLog 2 "t2", Event.quizResultCall "tok" 1,
        Event.solveLog 1, Event.createQuizCall "tok" 1] :=
  ⟨rfl, by decide⟩

/-- C2 as amended: the orchestrator's only try/catch wraps the whole run, so
a failure of one topic's quiz runner is not contained at topic granularity:
the run aborts immediately with a 500 answer, and its trace ends with the
failing topic's events — the remaining topics of the unit are only listed
(`topicLog`), never queried or attempted, and subsequent units are not
touched at all. -/
theorem handlePost_topic_failure_aborts_run (env : Env) (fuel : Nat)
    (tokenVar : Option String) (a uid u : String) (us : List String)
    (raw : List TopicRaw) (t : TopicRef) (rest : List TopicRef)
    (revts : List Event)
    (ha : a ≠ "") (huid : uid ≠ "")
    (hsplit : splitSpaces uid = u :: us)
    (hl : env.listTopics u = .ok raw)
    (helig : eligibleTopics raw = t :: rest)
    (hres : env.quizResult t.topicId = .ok false)
    (hrun : attemptOneQuiz env fuel a t.topicId t.topicName =
      some (revts, .error ())) :
    handlePost env fuel tokenVar { accessToken := some a, unitId := some uid } =
      some (some a,
        [Event.listTopicsCall a u] ++
          (t :: rest).map (fun t2 => Event.topicLog t2.topicId t2.topicName) ++
          ([Event.quizResultCall a t.topicId, Event.solveLog t.topicId] ++ revts),
        500) := by
  have hta : truthy (some a) = true := by simp [truthy, ha]
  have htu : truthy (some uid) = true := by simp [truthy, huid]
  have htl : topicsLoop env fuel a (t :: rest) =
      some ([Event.quizResultCall a t.topicId, Event.solveLog t.topicId] ++ revts,
        .error ()) := by
    simp [topicsLoop, resultQuiz, hres, hrun]
  have hul : unitsLoop env fuel a (u :: us) =
      some ([Event.listTopicsCall a u] ++
        (t :: rest).map (fun t2 => Event.topicLog t2.topicId t2.topicName) ++
        ([Event.quizResultCall a t.topicId, Event.solveLog t.topicId] ++ revts),
        .error ()) := by
    simp [unitsLoop, getUnitTopics, hl, helig, htl]
  simp [handlePost, hta, htu, hsplit, hul]

/-- Closed instance of `handlePost_topic_failure_aborts_run`. -/
theorem handlePost_topic_failure_aborts_run_witness :
    handlePost wEnvTopicFail 1 none
        { accessToken := some "tok", unitId := some "u" } =
      some (some "tok",
        [Event.listTopicsCall "tok" "u"] ++
          ([⟨1, "t1"⟩, ⟨2, "t2"⟩] : List TopicRef).map
            (fun t2 => Event.topicLog t2.topicId t2.topicName) ++
          ([Event.quizResultCall "tok" 1, Event.solveLog 1] ++
            [Event.createQuizCall "tok" 1]),
        500) :=
  handlePost_topic_failure_aborts_run wEnvTopicFail 1 none "tok" "u" "u" []
    [{ id := 1, name := "t1", contentFlag := true },
      { id := 2, name := "t2", contentFlag := true }]
    ⟨1, "t1"⟩ [⟨2, "t2"⟩] [Event.createQuizCall "tok" 1]
    (by decide) (by decide) (by decide) rfl rfl rfl rfl

/-- C9: For a unit whose eligible topics are exactly two, one passed and one
not (in either order), a run that completes successfully invokes the quiz
runner exactly once — its single create-quiz call is for the unpassed topic
— and records exactly one skip log entry — for the passed topic. -/
theorem handlePost_one_passed_one_not (env : Env) (fuel : Nat)
    (tokenVar : Option String) (a uid u : String) (raw : List TopicRaw)
    (t1 t2 : TopicRef) (b1 b2 : Bool)
    (ha : a ≠ "") (huid : uid ≠ "")
    (hsplit : splitSpaces uid = [u])
    (hl : env.listTopics u = .ok raw)
    (helig : eligibleTopics raw = [t1, t2])
    (hr1 : env.quizResult t1.topicId = .ok b1)
    (hr2 : env.quizResult t2.topicId = .ok b2)
    (hne : b1 = !b2)
    (hrun : ∀ tid name, ∃ evts r,
      attemptOneQuiz env fuel a tid name = some (evts, .ok r)) :
    ∃ evts, handlePost env fuel tokenVar
        { accessToken := some a, unitId := some uid } =
      some (some a, evts, 200) ∧
      evts.filter Event.isSkipLog = [.skipLog (if b1 then t1 else t2).topicId] ∧
      evts.filter Event.isCreateQuizCall =
        [.createQuizCall a (if b1 then t2 else t1).topicId] := by
  have hta : truthy (some a) = true := by simp [truthy, ha]
  have htu : truthy (some uid) = true := by simp [truthy, huid]
  cases b2 with
  | false =>
    simp only [Bool.not_false] at hne
    subst hne
    obtain ⟨revts, r2, hrun2⟩ := hrun t2.topicId t2.topicName
    have hrev := attemptOneQuiz_events env fuel a t2.topicId t2.topicName
      revts (.ok r2) hrun2
    have htl : topicsLoop env fuel a [t1, t2] =
        some (Event.quizResultCall a t1.topicId :: Event.skipLog t1.topicId ::
          Event.quizResultCall a t2.topicId :: Event.solveLog t2.topicId ::
          (revts ++ [Event.finishedLog t2.topicId]), .ok ()) := by
      simp [topicsLoop, resultQuiz, hr1, hr2, hrun2]
    have hul : unitsLoop env fuel a [u] =
        some (Event.listTopicsCall a u ::
          Event.topicLog t1.topicId t1.topicName ::
          Event.topicLog t2.topicId t2.topicName ::
          Event.quizResultCall a t1.topicId :: Event.skipLog t1.topicId ::
          Event.quizResultCall a t2.topicId :: Event.solveLog t2.topicId ::
          (revts ++ [Event.finishedLog t2.topicId]), .ok ()) := by
      simp [unitsLoop, getUnitTopics, hl, helig, htl]
    refine ⟨Event.listTopicsCall a u ::
        Event.topicLog t1.topicId t1.topicName ::
        Event.topicLog t2.topicId t2.topicName ::
        Event.quizResultCall a t1.topicId :: Event.skipLog t1.topicId ::
        Event.quizResultCall a t2.topicId :: Event.solveLog t2.topicId ::
        (revts ++ [Event.finishedLog t2.topicId]),
      by simp [handlePost, hta, htu, hsplit, hul], ?_, ?_⟩
    · have hrevskip : revts.filter Event.isSkipLog = [] :=
        List.filter_eq_nil_iff.mpr (fun e he => by simp [hrev.2.1 e he])
      simp [List.filter_append, hrevskip, Event.isSkipLog]
    · simp [List.filter_append, hrev.1, Event.isCreateQuizCall]
  | true =>
    simp only [Bool.not_true] at hne
    subst hne
    obtain ⟨revts, r1, hrun1⟩ := hrun t1.topicId t1.topicName
    have hrev := attemptOneQuiz_events env fuel a t1.topicId t1.topicName
      revts (.ok r1) hrun1
    have htl : topicsLoop env fuel a [t1, t2] =
        some (Event.quizResultCall a t1.topicId :: Event.solveLog t1.topicId ::
          (revts ++ [Event.finishedLog t1.topicId,
            Event.quizResultCall a t2.topicId, Event.skipLog t2.topicId]),
          .ok ()) := by
      simp [topicsLoop, resultQuiz, hr1, hr2, hrun1]
    have hul : unitsLoop env fuel a [u] =
        some (Event.listTopicsCall a u ::
          Event.topicLog t1.topicId t1.topicName ::
          Event.topicLog t2.topicId t2.topicName ::
          Event.quizResultCall a t1.topicId :: Event.solveLog t1.topicId ::
          (revts ++ [Event.finishedLog t1.topicId,
            Event.quizResultCall a t2.topicId, Event.skipLog t2.topicId]),
          .ok ()) := by
      simp [unitsLoop, getUnitTopics, hl, helig, htl]
    refine ⟨Event.listTopicsCall a u ::
        Event.topicLog t1.topicId t1.topicName ::
        Event.topicLog t2.topicId t2.topicName ::
        Event.quizResultCall a t1.topicId :: Event.solveLog t1.topicId ::
        (revts ++ [Event.finishedLog t1.topicId,
          Event.quizResultCall a t2.topicId, Event.skipLog t2.topicId]),
      by simp [handlePost, hta, htu, hsplit, hul], ?_, ?_⟩
    · have hrevskip : revts.filter Event.isSkipLog = [] :=
        List.filter_eq_nil_iff.mpr (fun e he => by simp [hrev.2.1 e he])
      simp [List.filter_append, hrevskip, Event.isSkipLog]
    · simp [List.filter_append, hrev.1, Event.isCreateQuizCall]

/-- Closed instance of `handlePost_one_passed_one_not`: topic 1 passed,
topic 2 not. -/
theorem handlePost_one_passed_one_not_witness :
    ∃ evts, handlePost wEnvOnePassed 1 none
        { accessToken := some "tok", unitId := some "u" } =
      some (some "tok", evts, 200) ∧
      evts.filter Event.isSkipLog =
        [.skipLog (if true then (⟨1, "t1"⟩ : TopicRef) else ⟨2, "t2"⟩).topicId] ∧
      evts.filter Event.isCreateQuizCall =
        [.createQuizCall "tok"
          (if true then (⟨2, "t2"⟩ : TopicRef) else ⟨1, "t1"⟩).topicId] := by
  refine handlePost_one_passed_one_not wEnvOnePassed 1 none "tok" "u" "u"
    [{ id := 1, name := "t1", contentFlag := true },
      { id := 2, name := "t2", contentFlag := true }]
    ⟨1, "t1"⟩ ⟨2, "t2"⟩ true false (by decide) (by decide) (by decide)
    rfl rfl rfl rfl (by decide) ?_
  intro tid name
  exact ⟨[Event.createQuizCall "tok" tid,
    Event.writeFile (sanitizeTopicName name ++ ".txt") ""], (9, 0), rfl⟩

end TessQuiz
